import Mathlib

/-!
# blog-go: the clean watcher and the command-line application wrapper

A shallow embedding of

* `internal/watcher/watcher/clean/watcher.go` (`cleanWatcher.Run`, `Spec`, `Init`), and
* `pkg/app/app.go` (the `With*` options, `NewApp`, `buildCmd`, `runE`, `applyOptionRules`),

followed by the properties established about them.

Conventions of the embedding.

* A Go `error` value is `Option GoError`; `none` is the `nil` error.
* A Go pointer or interface value that may be `nil` is an `Option`.
* Calls into collaborators whose code lives outside the repository (the redsync mutex,
  the MySQL store factory, the logger) are recorded as events of a trace; what they
  return is supplied by a record of outcomes, so that every outcome is covered.
* A run-time panic (nil dereference, method call on a nil interface) is an explicit
  result, never a missing case.
-/

/-- A non-nil Go `error`: either a package-level sentinel, identified by its qualified
name, or an error built at run time, identified by its message. -/
inductive GoError where
  | sentinel (name : String)
  | dynamic (msg : String)
deriving DecidableEq, Repr

namespace Clean

/-- A non-nil `context.Context` value. -/
structure Ctx where
  id : Nat
deriving DecidableEq, Repr

/-- The target of a non-nil `*redsync.Mutex`: the named lock it stands for. -/
structure Mutex where
  name : String
deriving DecidableEq, Repr

/-- The struct `cleanWatcher` (watcher.go, lines 20-24). The zero value registered by
`init()` has a nil context, a nil mutex and `maxReserveDays = 0`. -/
structure cleanWatcher where
  ctx : Option Ctx
  mutex : Option Mutex
  maxReserveDays : Int
deriving DecidableEq, Repr

/-- Modelled from the spec: the sentinel `watcher.ErrConfigUnavailable`, declared in the
watcher package, which is not among the sources; it is the configuration-kind error. -/
def ErrConfigUnavailable : GoError := GoError.sentinel "watcher.ErrConfigUnavailable"

/-- Modelled from the spec: the `Clean` section of `options.WatcherOptions`; only the
field read by `Init` (`MaxReserveDays`, a Go `int`) is known from the sources. -/
structure CleanOptions where
  MaxReserveDays : Int
deriving DecidableEq, Repr

/-- Modelled from the spec: `options.WatcherOptions`, declared in a package that is not
among the sources; `Init` reads `cfg.Clean.MaxReserveDays`. -/
structure WatcherOptions where
  Clean : CleanOptions
deriving DecidableEq, Repr

/-- A value of the parameter `config interface{}` of `Init`: the nil interface, a value
whose dynamic type is `*options.WatcherOptions` (the pointer itself may be nil), or a
value of any other dynamic type. -/
inductive Config where
  | nilInterface
  | watcherOptions (p : Option WatcherOptions)
  | other (typeName : String)
deriving DecidableEq, Repr

/-- The comma-ok type assertion `cfg, ok := config.(*options.WatcherOptions)`: it succeeds
exactly when the dynamic type is `*options.WatcherOptions`, also for a nil pointer of that
type; when it fails `cfg` is the zero value, a nil pointer. -/
def assertWatcherOptions : Config → Option WatcherOptions × Bool
  | Config.watcherOptions p => (p, true)
  | Config.nilInterface => (none, false)
  | Config.other _ => (none, false)

/-- The ways a call can end. -/
inductive Exit where
  | returned
  | panicked
deriving DecidableEq, Repr

/-- Result of `Init`: it returns an error value and leaves the watcher in some state, or
it panics. -/
structure InitResult where
  cw : cleanWatcher
  err : Option GoError
  exit : Exit
deriving DecidableEq, Repr

/-- The method `cleanWatcher.Init` (watcher.go, lines 60-73). The composite literal is
evaluated before the assignment `*cw = ...`, so the dereference `cfg.Clean` of a nil
`cfg` panics with the watcher untouched. -/
def Init (cw : cleanWatcher) (ctx : Option Ctx) (rs : Option Mutex) (config : Config) :
    InitResult :=
  match assertWatcherOptions config with
  | (_, false) => { cw := cw, err := some ErrConfigUnavailable, exit := Exit.returned }
  | (none, true) => { cw := cw, err := none, exit := Exit.panicked }
  | (some cfg, true) =>
      { cw := { ctx := ctx, mutex := rs, maxReserveDays := cfg.Clean.MaxReserveDays },
        err := none, exit := Exit.returned }

/-- The method `cleanWatcher.Spec` (watcher.go, lines 54-57). -/
def Spec (_cw : cleanWatcher) : String := "@every 1d"

/-- What `Run` does to its collaborators, in program order. -/
inductive Event where
  | mutexLock
  | mutexUnlock
  | getMySQLFactoryOr
  | clearOutdated (ctx : Option Ctx) (maxReserveDays : Int)
  | logInfo (msg : String)
  | logErrorf (msg : String) (err : GoError)
  | logErrorw (msg : String) (err : GoError)
  | logDebugf (msg : String) (rowsAffected : Int)
deriving DecidableEq, Repr

/-- A non-nil `store.Factory` as `Run` uses it: the behaviour of
`db.PolicyAudits().ClearOutdated(ctx, maxReserveDays)`, which returns the number of
affected rows and an error. -/
structure Store where
  ClearOutdated : Option Ctx → Int → Int × Option GoError

/-- The outcomes of the calls `Run` makes outside the repository.
`Lock` is the error returned by `cw.mutex.Lock()` on a non-nil mutex, `Unlock` the pair
returned by `cw.mutex.Unlock()`, `GetMySQLFactoryOr` the pair returned by
`mysql.GetMySQLFactoryOr(nil)` (the store is `none` when the factory returns no store). -/
structure Collaborators where
  Lock : Option GoError
  Unlock : Bool × Option GoError
  GetMySQLFactoryOr : Option Store × Option GoError

/-- Result of `Run`: the watcher afterwards, the trace of collaborator calls, and whether
the call returned or panicked. -/
structure RunResult where
  cw : cleanWatcher
  trace : List Event
  exit : Exit
deriving DecidableEq, Repr

/-- The body of `Run` after the lock is held (watcher.go, lines 42-51). The error of the
factory is discarded (`db, _ :=`); calling `db.PolicyAudits()` on a nil interface value
panics. -/
def runBody (cw : cleanWatcher) (env : Collaborators) : List Event × Exit :=
  match env.GetMySQLFactoryOr.1 with
  | none => ([Event.getMySQLFactoryOr], Exit.panicked)
  | some db =>
      match db.ClearOutdated cw.ctx cw.maxReserveDays with
      | (_, some err) =>
          ([Event.getMySQLFactoryOr, Event.clearOutdated cw.ctx cw.maxReserveDays,
            Event.logErrorw "clean data from policy_audit failed" err], Exit.returned)
      | (rowsAffected, none) =>
          ([Event.getMySQLFactoryOr, Event.clearOutdated cw.ctx cw.maxReserveDays,
            Event.logDebugf "clean data from policy_audit succ, %d rows affected"
              rowsAffected], Exit.returned)

/-- The deferred function of `Run` (watcher.go, lines 34-40): it unlocks and logs a
failure. Go runs it when the body returns and also while a panic of the body unwinds. -/
def runDeferred (env : Collaborators) : List Event :=
  match env.Unlock.2 with
  | some err => [Event.mutexUnlock, Event.logErrorf "could not release cleanWatcher lock. err: %v" err]
  | none => [Event.mutexUnlock]

/-- The method `cleanWatcher.Run` (watcher.go, lines 27-52). With a nil mutex the call
`cw.mutex.Lock()` dereferences the nil receiver inside redsync and panics. `Run` never
assigns to the watcher. -/
def Run (cw : cleanWatcher) (env : Collaborators) : RunResult :=
  match cw.mutex with
  | none => { cw := cw, trace := [], exit := Exit.panicked }
  | some _ =>
      match env.Lock with
      | some _ =>
          { cw := cw, trace := [Event.mutexLock, Event.logInfo "cleanWatcher already run."],
            exit := Exit.returned }
      | none =>
          { cw := cw,
            trace := Event.mutexLock :: ((runBody cw env).1 ++ runDeferred env),
            exit := (runBody cw env).2 }

/-- Whether an event is a call of `ClearOutdated`. -/
def Event.isClearOutdated : Event → Bool
  | Event.clearOutdated _ _ => true
  | _ => false

/-- Whether an event is the release attempt `cw.mutex.Unlock()`. -/
def Event.isUnlock : Event → Bool
  | Event.mutexUnlock => true
  | _ => false

/-- The watcher after a sequence of scheduled occurrences, one `Run` per occurrence, each
with its own collaborator outcomes. -/
def afterRuns (cw : cleanWatcher) : List Collaborators → cleanWatcher
  | [] => cw
  | env :: rest => afterRuns (Run cw env).cw rest

/-! ## The fleet: several processes running `Run` against one lock backend -/

/-- Modelled from the spec: the lock service of section 4.1, which the sources only use
through redsync. The shared store holds, for the watcher's lock name, the owner token of
the live lease, or nothing. `tryAcquire` is the atomic set-if-absent: it installs the
caller's token only when no live lease exists and reports whether it did. -/
def tryAcquire (lease : Option Nat) (token : Nat) : Option Nat × Bool :=
  match lease with
  | none => (some token, true)
  | some t => (some t, false)

/-- Modelled from the spec: `Release` of section 4.1: the lease is removed only when the
stored token is the caller's; otherwise the store is left as it is and the release fails. -/
def release (lease : Option Nat) (token : Nat) : Option Nat × Bool :=
  if lease = some token then (none, true) else (lease, false)

/-- Where one process stands inside `Run`: before `cw.mutex.Lock()` (line 28), in the body
with the lock held (lines 42-51), in the deferred release after the body ended with the
given exit (lines 34-40), or past the end of `Run`. -/
inductive Pc where
  | atLock
  | inBody
  | atUnlock (bodyExit : Exit)
  | finished (exit : Exit)
deriving DecidableEq, Repr

/-- The fleet during one scheduled occurrence: the shared lease and the position of each
process; process `i` uses `i` as its owner token. No lease expires. -/
structure FleetState where
  lease : Option Nat
  pcs : List Pc
deriving DecidableEq, Repr

/-- All `n` processes are about to call `Run` and nobody holds the lease. -/
def FleetState.initial (n : Nat) : FleetState :=
  { lease := none, pcs := List.replicate n Pc.atLock }

/-- One atomic step of process `i`, following the control flow of `Run`; `bodyExit` is how
the body ends when the step is the body step. -/
def stepProcess (s : FleetState) (i : Nat) (bodyExit : Exit) : FleetState :=
  match s.pcs[i]? with
  | some Pc.atLock =>
      match tryAcquire s.lease i with
      | (lease, true) => { lease := lease, pcs := s.pcs.set i Pc.inBody }
      | (lease, false) => { lease := lease, pcs := s.pcs.set i (Pc.finished Exit.returned) }
  | some Pc.inBody => { lease := s.lease, pcs := s.pcs.set i (Pc.atUnlock bodyExit) }
  | some (Pc.atUnlock e) =>
      { lease := (release s.lease i).1, pcs := s.pcs.set i (Pc.finished e) }
  | some (Pc.finished _) => s
  | none => s

/-- An interleaving: which process moves next, and how its body ends if it is in it. -/
def execute (s : FleetState) : List (Nat × Exit) → FleetState
  | [] => s
  | (i, e) :: rest => execute (stepProcess s i e) rest

/-- A process is executing the job body when it is between its successful acquire and its
release. -/
def Pc.holdsLock : Pc → Bool
  | Pc.inBody => true
  | Pc.atUnlock _ => true
  | _ => false

/-- Whether process `i` of the fleet is executing the job body. -/
def FleetState.executing (s : FleetState) (i : Nat) : Bool :=
  match s.pcs[i]? with
  | some pc => pc.holdsLock
  | none => false

/-- The invariant behind mutual exclusion: a process that is executing the body owns the
live lease. -/
def FleetState.ownerInv (s : FleetState) : Prop :=
  ∀ i, s.executing i = true → s.lease = some i

end Clean

namespace app

/-- The type `RunFunc` (app.go, line 80). -/
abbrev RunFunc := String → Option GoError

/-- A non-nil `cobra.PositionalArgs` function value. -/
structure PositionalArgs where
  id : Nat
deriving DecidableEq, Repr

/-- A sub-command (`*Command` of this package, declared outside app.go). -/
structure SubCommand where
  name : String
deriving DecidableEq, Repr

/-- A non-nil `CliOptions` value as app.go uses it: the names of the flag sets returned by
`Flags()`, the result of `Complete()` when the dynamic type also implements
`CompletableOptions` (`none` when it does not), and the slice returned by `Validate()`,
whose elements are `error` values and so may be nil. -/
structure CliOptions where
  Flags : List String
  Complete : Option (Option GoError)
  Validate : List (Option GoError)
deriving DecidableEq, Repr

/-- The fields of `cobra.Command` that `buildCmd` sets. -/
structure Command where
  Use : String
  Short : String
  Long : String
  SilenceUsage : Bool
  SilenceErrors : Bool
  Args : Option PositionalArgs
  subCommands : List SubCommand
  helpCommand : Option String
  hasRunE : Bool
  flagSets : List String
deriving DecidableEq, Repr

/-- The struct `App` (app.go, lines 60-76). -/
structure App where
  use : String
  short : String
  long : String
  options : Option CliOptions
  cmd : Option Command
  commands : List SubCommand
  args : Option PositionalArgs
  validArgs : List String
  runFunc : Option RunFunc
  silenceUsage : Bool
  silenceErrors : Bool

/-- The type `Option` of app.go (line 78), a function that updates the `App` in place. -/
abbrev AppOption := App → App

/-- `WithLong` (app.go, lines 82-86). -/
def WithLong (desc : String) : AppOption := fun app => { app with long := desc }

/-- `WithFlags` (app.go, lines 88-92). -/
def WithFlags (flags : Option CliOptions) : AppOption := fun app => { app with options := flags }

/-- `WithArgs` (app.go, lines 94-98). -/
def WithArgs (args : Option PositionalArgs) : AppOption := fun app => { app with args := args }

/-- `WithValidArgs` (app.go, lines 100-104). -/
def WithValidArgs (validArgs : List String) : AppOption :=
  fun app => { app with validArgs := validArgs }

/-- `WithRunFunc` (app.go, lines 106-110). -/
def WithRunFunc (runFunc : Option RunFunc) : AppOption :=
  fun app => { app with runFunc := runFunc }

/-- `WithSilenceUsage` (app.go, lines 112-116). -/
def WithSilenceUsage (silenceUsage : Bool) : AppOption :=
  fun app => { app with silenceUsage := silenceUsage }

/-- `WithSilenceErrors` (app.go, lines 118-122); the body assigns `app.silenceUsage`. -/
def WithSilenceErrors (silenceErrors : Bool) : AppOption :=
  fun app => { app with silenceUsage := silenceErrors }

/-- `buildCmd` (app.go, lines 144-183). `FormatUseName` is declared outside app.go and is
a parameter. The flag sets of cobra are kept as the list of their names. -/
def buildCmd (FormatUseName : String → String) (a : App) : App :=
  { a with
    cmd := some
      { Use := FormatUseName a.use
        Short := a.short
        Long := a.long
        SilenceUsage := a.silenceUsage
        SilenceErrors := a.silenceErrors
        Args := a.args
        subCommands := a.commands
        helpCommand := if a.commands.length > 0 then some (FormatUseName a.use) else none
        hasRunE := a.runFunc.isSome
        flagSets := match a.options with
          | some o => o.Flags
          | none => [] } }

/-- `NewApp` (app.go, lines 127-142). -/
def NewApp (FormatUseName : String → String) (use : String) (short : String)
    (opts : List AppOption) : App :=
  let app : App :=
    { use := use, short := short, long := "", options := none, cmd := none, commands := [],
      args := none, validArgs := [], runFunc := none,
      silenceUsage := true, silenceErrors := true }
  buildCmd FormatUseName (opts.foldl (fun a opt => opt a) app)

/-- The calls `runE` makes into the options and the run function, in program order. -/
inductive Call where
  | complete
  | validate
  | runFunc (basename : String)
deriving DecidableEq, Repr

/-- Result of `runE` and of `applyOptionRules`: the returned error, the calls made, and
whether the function returned or panicked. -/
structure CallResult where
  err : Option GoError
  calls : List Call
  exit : Clean.Exit
deriving DecidableEq, Repr

/-- `applyOptionRules` (app.go, lines 201-218). A method call on nil options panics; `runE`
never makes it. `errs[0]` is returned whatever it is, also a nil element. -/
def applyOptionRules (a : App) : CallResult :=
  match a.options with
  | none => { err := none, calls := [], exit := Clean.Exit.panicked }
  | some o =>
      match o.Complete with
      | some (some err) => { err := some err, calls := [Call.complete], exit := Clean.Exit.returned }
      | completed =>
          let before := if completed.isSome then [Call.complete] else []
          match o.Validate with
          | e :: _ => { err := e, calls := before ++ [Call.validate], exit := Clean.Exit.returned }
          | [] => { err := none, calls := before ++ [Call.validate], exit := Clean.Exit.returned }

/-- `runE` (app.go, lines 185-199); the cobra command and the arguments are not used. -/
def runE (a : App) (_cmd : Option Command) (_args : List String) : CallResult :=
  let rules : CallResult :=
    if a.options.isSome then applyOptionRules a
    else { err := none, calls := [], exit := Clean.Exit.returned }
  match rules.exit, rules.err with
  | Clean.Exit.panicked, _ => rules
  | Clean.Exit.returned, some err => { err := some err, calls := rules.calls, exit := Clean.Exit.returned }
  | Clean.Exit.returned, none =>
      match a.runFunc with
      | some f => { err := f a.use, calls := rules.calls ++ [Call.runFunc a.use], exit := Clean.Exit.returned }
      | none => { err := none, calls := rules.calls, exit := Clean.Exit.returned }

end app

/-! ## Properties of the clean watcher -/

namespace Clean

/-- `Run` hands the watcher back as it received it: no path assigns to a field. -/
theorem Run_cw (cw : cleanWatcher) (env : Collaborators) : (Run cw env).cw = cw := by
  unfold Run
  cases cw.mutex with
  | none => rfl
  | some m =>
      cases env.Lock with
      | none => rfl
      | some e => rfl

/-- Any number of occurrences leaves the watcher as it was. -/
theorem afterRuns_eq (cw : cleanWatcher) (envs : List Collaborators) :
    afterRuns cw envs = cw := by
  induction envs generalizing cw with
  | nil => rfl
  | cons env rest ih =>
      show afterRuns (Run cw env).cw rest = cw
      rw [Run_cw, ih]

/-- With the lock held and a store at hand the body always returns, whether
`ClearOutdated` fails or not. -/
theorem runBody_returns_of_store (cw : cleanWatcher) (env : Collaborators) (db : Store)
    (hdb : env.GetMySQLFactoryOr.1 = some db) : (runBody cw env).2 = Exit.returned := by
  unfold runBody
  rw [hdb]
  simp only
  rcases h : db.ClearOutdated cw.ctx cw.maxReserveDays with ⟨rows, _ | err⟩ <;> rfl

/-- With the lock held and a store at hand the body calls `ClearOutdated` exactly once,
with the watcher's context and retention. -/
theorem runBody_clearOutdated_of_store (cw : cleanWatcher) (env : Collaborators) (db : Store)
    (hdb : env.GetMySQLFactoryOr.1 = some db) :
    (runBody cw env).1.filter Event.isClearOutdated
      = [Event.clearOutdated cw.ctx cw.maxReserveDays] := by
  unfold runBody
  rw [hdb]
  simp only
  rcases h : db.ClearOutdated cw.ctx cw.maxReserveDays with ⟨rows, _ | err⟩ <;>
    simp [List.filter, Event.isClearOutdated]

/-- The body never touches the mutex. -/
theorem runBody_no_unlock (cw : cleanWatcher) (env : Collaborators) :
    (runBody cw env).1.filter Event.isUnlock = [] := by
  unfold runBody
  cases env.GetMySQLFactoryOr.1 with
  | none => simp [List.filter, Event.isUnlock]
  | some db =>
      simp only
      rcases h : db.ClearOutdated cw.ctx cw.maxReserveDays with ⟨rows, _ | err⟩ <;>
        simp [List.filter, Event.isUnlock]

/-- The deferred function attempts the release exactly once. -/
theorem runDeferred_unlock_once (env : Collaborators) :
    (runDeferred env).filter Event.isUnlock = [Event.mutexUnlock] := by
  unfold runDeferred
  cases env.Unlock.2 with
  | none => simp [List.filter, Event.isUnlock]
  | some err => simp [List.filter, Event.isUnlock]

/-- The deferred function never calls `ClearOutdated`. -/
theorem runDeferred_no_clearOutdated (env : Collaborators) :
    (runDeferred env).filter Event.isClearOutdated = [] := by
  unfold runDeferred
  cases env.Unlock.2 with
  | none => simp [List.filter, Event.isClearOutdated]
  | some err => simp [List.filter, Event.isClearOutdated]

/-- `Spec` does not look at the watcher: it is the same string in every state. -/
theorem Spec_eq (cw : cleanWatcher) : Spec cw = "@every 1d" := rfl

/-- `Init` returns `ErrConfigUnavailable` exactly when the type assertion fails. -/
theorem Init_err_iff (cw : cleanWatcher) (ctx : Option Ctx) (rs : Option Mutex)
    (config : Config) :
    (Init cw ctx rs config).err = some ErrConfigUnavailable
      ↔ (assertWatcherOptions config).2 = false := by
  cases config with
  | nilInterface => simp [Init, assertWatcherOptions]
  | other t => simp [Init, assertWatcherOptions]
  | watcherOptions p => cases p <;> simp [Init, assertWatcherOptions]

/-- For a non-nil pointer to watcher options `Init` stores its three arguments and returns
nil. -/
theorem Init_of_options (cw : cleanWatcher) (ctx : Option Ctx) (rs : Option Mutex)
    (wo : WatcherOptions) :
    Init cw ctx rs (Config.watcherOptions (some wo))
      = { cw := { ctx := ctx, mutex := rs, maxReserveDays := wo.Clean.MaxReserveDays },
          err := none, exit := Exit.returned } := rfl

/-- Whenever `Init` hands back an error, or panics, the watcher is untouched. -/
theorem Init_frame (cw : cleanWatcher) (ctx : Option Ctx) (rs : Option Mutex)
    (config : Config)
    (h : (Init cw ctx rs config).err ≠ none ∨ (Init cw ctx rs config).exit = Exit.panicked) :
    (Init cw ctx rs config).cw = cw := by
  cases config with
  | nilInterface => rfl
  | other t => rfl
  | watcherOptions p =>
      cases p with
      | none => rfl
      | some wo => simp [Init, assertWatcherOptions] at h


/-- C1 (defect in the code): once the lock is acquired and the store factory returns an
error with no store, `Run` does not return normally. The factory error is discarded, the
nil store is used, and `Run` panics; the deferred release is still attempted, after which
the panic reaches the caller. This holds for every context, mutex, retention, release
outcome and factory error. -/
theorem C1_Run_panics_without_store (ctx : Option Ctx) (m : Mutex) (d : Int)
    (unlock : Bool × Option GoError) (ferr : Option GoError) :
    (Run { ctx := ctx, mutex := some m, maxReserveDays := d }
        { Lock := none, Unlock := unlock, GetMySQLFactoryOr := (none, ferr) }).exit
      = Exit.panicked
    ∧ (Run { ctx := ctx, mutex := some m, maxReserveDays := d }
        { Lock := none, Unlock := unlock, GetMySQLFactoryOr := (none, ferr) }).trace
      = Event.mutexLock :: Event.getMySQLFactoryOr ::
          runDeferred { Lock := none, Unlock := unlock, GetMySQLFactoryOr := (none, ferr) } :=
  ⟨rfl, rfl⟩

/-- C2: when the lock acquisition fails, `Run` logs at informational level and returns at
once: its whole trace is the lock attempt and that log line, so the store factory is not
looked up, `ClearOutdated` is not called, no release is attempted, and the watcher is
unchanged. -/
theorem C2_Run_contended (cw : cleanWatcher) (m : Mutex) (env : Collaborators) (err : GoError)
    (hm : cw.mutex = some m) (hlock : env.Lock = some err) :
    (Run cw env).trace = [Event.mutexLock, Event.logInfo "cleanWatcher already run."]
    ∧ (Run cw env).exit = Exit.returned
    ∧ (Run cw env).cw = cw
    ∧ Event.getMySQLFactoryOr ∉ (Run cw env).trace
    ∧ Event.mutexUnlock ∉ (Run cw env).trace
    ∧ (Run cw env).trace.filter Event.isClearOutdated = [] := by
  have htrace : (Run cw env).trace
      = [Event.mutexLock, Event.logInfo "cleanWatcher already run."] := by
    unfold Run
    rw [hm, hlock]
  have hexit : (Run cw env).exit = Exit.returned := by
    unfold Run
    rw [hm, hlock]
  refine ⟨htrace, hexit, Run_cw cw env, ?_, ?_, ?_⟩
  · rw [htrace]; simp
  · rw [htrace]; simp
  · rw [htrace]; simp [List.filter, Event.isClearOutdated]

/-- C2, at a concrete watcher whose lock is held elsewhere. -/
theorem C2_Run_contended_witness :
    (Run { ctx := some ⟨1⟩, mutex := some ⟨"clean"⟩, maxReserveDays := 30 }
        { Lock := some (GoError.dynamic "lock already taken"), Unlock := (false, none),
          GetMySQLFactoryOr := (none, none) }).trace
      = [Event.mutexLock, Event.logInfo "cleanWatcher already run."] :=
  (C2_Run_contended { ctx := some ⟨1⟩, mutex := some ⟨"clean"⟩, maxReserveDays := 30 }
    ⟨"clean"⟩
    { Lock := some (GoError.dynamic "lock already taken"), Unlock := (false, none),
      GetMySQLFactoryOr := (none, none) }
    (GoError.dynamic "lock already taken") rfl rfl).1

/-- In every execution of `Run` that acquires the lock, the trace is the lock call, the
events of the body, one release attempt, and nothing more except one error log when the
release fails. So the release is attempted exactly once and after the body, however the
body ends. `Run` ends as its body ends, whatever the release outcome: it returns when a
store is at hand, and it panics when the body does. -/
theorem Run_acquired_releases_once (cw : cleanWatcher) (m : Mutex) (env : Collaborators)
    (hm : cw.mutex = some m) (hlock : env.Lock = none) :
    ((Run cw env).trace.filter Event.isUnlock).length = 1
    ∧ (Run cw env).trace
        = Event.mutexLock :: ((runBody cw env).1 ++ Event.mutexUnlock ::
            (match env.Unlock.2 with
             | some err => [Event.logErrorf "could not release cleanWatcher lock. err: %v" err]
             | none => []))
    ∧ (runBody cw env).1.filter Event.isUnlock = []
    ∧ (Run cw env).exit = (runBody cw env).2
    ∧ (∀ db, env.GetMySQLFactoryOr.1 = some db → (Run cw env).exit = Exit.returned) := by
  have htrace : (Run cw env).trace
      = Event.mutexLock :: ((runBody cw env).1 ++ runDeferred env) := by
    unfold Run
    rw [hm, hlock]
  have hexit : (Run cw env).exit = (runBody cw env).2 := by
    unfold Run
    rw [hm, hlock]
  refine ⟨?_, ?_, runBody_no_unlock cw env, hexit, ?_⟩
  · rw [htrace, List.filter_cons, List.filter_append, runBody_no_unlock,
      runDeferred_unlock_once]
    simp [Event.isUnlock]
  · rw [htrace]
    unfold runDeferred
    cases env.Unlock.2 <;> rfl
  · intro db hdb
    rw [hexit]
    exact runBody_returns_of_store cw env db hdb

/-- C3 (defect in the code): in an execution of `Run` that acquires the lock, gets no store
from the factory and whose release fails, the release is attempted exactly once, after
the body, and its failure is only logged; yet `Run` does not return normally, because the
panic of the body, raised on the nil store, goes on to the caller once the deferred
release is over. This holds for every context, mutex, retention, factory error and
release error. -/
theorem C3_Run_panics_after_failed_release (ctx : Option Ctx) (m : Mutex) (d : Int)
    (ok : Bool) (rerr : GoError) (ferr : Option GoError) :
    (Run { ctx := ctx, mutex := some m, maxReserveDays := d }
        { Lock := none, Unlock := (ok, some rerr), GetMySQLFactoryOr := (none, ferr) }).trace
      = [Event.mutexLock, Event.getMySQLFactoryOr, Event.mutexUnlock,
         Event.logErrorf "could not release cleanWatcher lock. err: %v" rerr]
    ∧ ((Run { ctx := ctx, mutex := some m, maxReserveDays := d }
        { Lock := none, Unlock := (ok, some rerr),
          GetMySQLFactoryOr := (none, ferr) }).trace.filter Event.isUnlock).length = 1
    ∧ (Run { ctx := ctx, mutex := some m, maxReserveDays := d }
        { Lock := none, Unlock := (ok, some rerr), GetMySQLFactoryOr := (none, ferr) }).exit
      ≠ Exit.returned := by
  refine ⟨rfl, rfl, ?_⟩
  show Exit.panicked ≠ Exit.returned
  decide

/-- C4 (defect in the code): a config whose dynamic type is the expected
`*options.WatcherOptions` but whose pointer is nil passes the type assertion, and `Init`
then neither returns nil nor returns `ErrConfigUnavailable`: it panics on the dereference
of the nil pointer. -/
theorem C4_Init_expected_type_nil_pointer (cw : cleanWatcher) (ctx : Option Ctx)
    (rs : Option Mutex) :
    (assertWatcherOptions (Config.watcherOptions none)).2 = true
    ∧ (Init cw ctx rs (Config.watcherOptions none)).exit ≠ Exit.returned
    ∧ (Init cw ctx rs (Config.watcherOptions none)).err ≠ some ErrConfigUnavailable := by
  refine ⟨rfl, ?_, ?_⟩
  · simp [Init, assertWatcherOptions]
  · simp [Init, assertWatcherOptions]

/-- C5 as stated fails: after a successful `Init` with `MaxReserveDays = 30`, an occurrence
that acquires the lock while the store factory yields no store makes no `ClearOutdated`
call at all. -/
theorem C5_counterexample :
    (Init { ctx := none, mutex := none, maxReserveDays := 0 } (some ⟨1⟩) (some ⟨"clean"⟩)
        (Config.watcherOptions (some { Clean := { MaxReserveDays := 30 } }))).err = none
    ∧ (Init { ctx := none, mutex := none, maxReserveDays := 0 } (some ⟨1⟩) (some ⟨"clean"⟩)
        (Config.watcherOptions (some { Clean := { MaxReserveDays := 30 } }))).exit
        = Exit.returned
    ∧ (Run (Init { ctx := none, mutex := none, maxReserveDays := 0 } (some ⟨1⟩)
          (some ⟨"clean"⟩)
          (Config.watcherOptions (some { Clean := { MaxReserveDays := 30 } }))).cw
        { Lock := none, Unlock := (true, none),
          GetMySQLFactoryOr := (none, some (GoError.dynamic "failed to get mysql store")) }).trace
        = [Event.mutexLock, Event.getMySQLFactoryOr, Event.mutexUnlock]
    ∧ ((Run (Init { ctx := none, mutex := none, maxReserveDays := 0 } (some ⟨1⟩)
          (some ⟨"clean"⟩)
          (Config.watcherOptions (some { Clean := { MaxReserveDays := 30 } }))).cw
        { Lock := none, Unlock := (true, none),
          GetMySQLFactoryOr := (none, some (GoError.dynamic "failed to get mysql store")) }
        ).trace.filter Event.isClearOutdated).length ≠ 1 := by
  refine ⟨rfl, rfl, rfl, ?_⟩
  decide

/-- C5 (amended): for every configuration with `Clean.MaxReserveDays = d`, `Init` succeeds,
and after any number of earlier occurrences each `Run` that acquires the lock and gets a
store from the factory calls `ClearOutdated` exactly once, with the context given to
`Init` and the retention `d`; `Run` leaves the watcher, and so `d`, unchanged. -/
theorem C5_Run_uses_configured_retention (cw0 : cleanWatcher) (ctx : Option Ctx) (rs : Mutex)
    (wo : WatcherOptions) (d : Int) (earlier : List Collaborators) (env : Collaborators)
    (db : Store) (hd : wo.Clean.MaxReserveDays = d) (hlock : env.Lock = none)
    (hdb : env.GetMySQLFactoryOr.1 = some db) :
    (Init cw0 ctx (some rs) (Config.watcherOptions (some wo))).err = none
    ∧ (Init cw0 ctx (some rs) (Config.watcherOptions (some wo))).exit = Exit.returned
    ∧ (Run (afterRuns (Init cw0 ctx (some rs) (Config.watcherOptions (some wo))).cw earlier)
          env).trace.filter Event.isClearOutdated = [Event.clearOutdated ctx d]
    ∧ (Run (afterRuns (Init cw0 ctx (some rs) (Config.watcherOptions (some wo))).cw earlier)
          env).cw.maxReserveDays = d := by
  rw [afterRuns_eq, Run_cw, Init_of_options]
  refine ⟨rfl, rfl, ?_, hd⟩
  have htrace : (Run { ctx := ctx, mutex := some rs, maxReserveDays := wo.Clean.MaxReserveDays }
      env).trace
      = Event.mutexLock ::
          ((runBody { ctx := ctx, mutex := some rs,
                      maxReserveDays := wo.Clean.MaxReserveDays } env).1
            ++ runDeferred env) := by
    unfold Run
    simp only [hlock]
  rw [htrace, List.filter_cons, List.filter_append,
    runBody_clearOutdated_of_store _ env db hdb, runDeferred_no_clearOutdated, hd]
  simp [Event.isClearOutdated]

/-- C5 (amended), at the configuration `maxReserveDays: 30` with a store whose
`ClearOutdated` reports 7 rows, after two earlier occurrences. -/
theorem C5_Run_uses_configured_retention_witness :
    (Run (afterRuns (Init { ctx := none, mutex := none, maxReserveDays := 0 } (some ⟨1⟩)
            (some ⟨"clean"⟩)
            (Config.watcherOptions (some { Clean := { MaxReserveDays := 30 } }))).cw
          [{ Lock := some (GoError.dynamic "held"), Unlock := (false, none),
             GetMySQLFactoryOr := (none, none) },
           { Lock := none, Unlock := (true, none),
             GetMySQLFactoryOr := (some { ClearOutdated := fun _ _ => (7, none) }, none) }])
        { Lock := none, Unlock := (true, none),
          GetMySQLFactoryOr := (some { ClearOutdated := fun _ _ => (7, none) }, none) }
      ).trace.filter Event.isClearOutdated = [Event.clearOutdated (some ⟨1⟩) 30] :=
  (C5_Run_uses_configured_retention { ctx := none, mutex := none, maxReserveDays := 0 }
    (some ⟨1⟩) ⟨"clean"⟩ { Clean := { MaxReserveDays := 30 } } 30
    [{ Lock := some (GoError.dynamic "held"), Unlock := (false, none),
       GetMySQLFactoryOr := (none, none) },
     { Lock := none, Unlock := (true, none),
       GetMySQLFactoryOr := (some { ClearOutdated := fun _ _ => (7, none) }, none) }]
    { Lock := none, Unlock := (true, none),
      GetMySQLFactoryOr := (some { ClearOutdated := fun _ _ => (7, none) }, none) }
    { ClearOutdated := fun _ _ => (7, none) } rfl rfl rfl).2.2.1

/-- C10 (defect in the code): `Init` is not total over config values. Given a nil pointer
of the expected type `*options.WatcherOptions`, on a freshly registered watcher, it
dereferences the pointer and panics, returning neither nil nor `ErrConfigUnavailable`;
the watcher is left as it was. -/
theorem C10_Init_panics_on_nil_pointer :
    Init { ctx := none, mutex := none, maxReserveDays := 0 } (some ⟨1⟩) (some ⟨"clean"⟩)
        (Config.watcherOptions none)
      = { cw := { ctx := none, mutex := none, maxReserveDays := 0 }, err := none,
          exit := Exit.panicked } := rfl

end Clean

/-! ## Mutual exclusion in the fleet -/

namespace Clean

/-- After process `k` moved, whether it is executing is read off its new position. -/
theorem executing_set_same (pcs : List Pc) (lease2 : Option Nat) (k : Nat) (pc : Pc)
    (hk : k < pcs.length) :
    FleetState.executing { lease := lease2, pcs := pcs.set k pc } k = pc.holdsLock := by
  simp [FleetState.executing, List.getElem?_set, hk]

/-- A move of process `k` does not change whether another process is executing. -/
theorem executing_set_other (pcs : List Pc) (lease lease2 : Option Nat) (k i : Nat) (pc : Pc)
    (hki : k ≠ i) :
    FleetState.executing { lease := lease2, pcs := pcs.set k pc } i
      = FleetState.executing { lease := lease, pcs := pcs } i := by
  simp [FleetState.executing, List.getElem?_set, hki]

/-- Nobody is executing before the first step. -/
theorem initial_ownerInv (n : Nat) : (FleetState.initial n).ownerInv := by
  intro i h
  simp only [FleetState.executing, FleetState.initial] at h
  split at h
  · rename_i pc hpc
    have hmem : pc ∈ List.replicate n Pc.atLock := List.getElem?_mem hpc
    rw [List.eq_of_mem_replicate hmem] at h
    simp [Pc.holdsLock] at h
  · simp at h


/-- A position that holds a process is within the fleet. -/
theorem getElem?_lt {pcs : List Pc} {k : Nat} {pc : Pc} (h : pcs[k]? = some pc) :
    k < pcs.length := by
  rcases List.getElem?_eq_some.mp h with ⟨hk, _⟩
  exact hk

/-- Whether a process is executing is read off its position. -/
theorem executing_of_getElem? (s : FleetState) (k : Nat) (pc : Pc) (h : s.pcs[k]? = some pc) :
    s.executing k = pc.holdsLock := by
  simp [FleetState.executing, h]

/-- Every step of every process preserves the invariant. -/
theorem stepProcess_ownerInv (s : FleetState) (k : Nat) (e : Exit) (hinv : s.ownerInv) :
    (stepProcess s k e).ownerInv := by
  obtain ⟨lease, pcs⟩ := s
  cases hpc : pcs[k]? with
  | none =>
      have hstep : stepProcess { lease := lease, pcs := pcs } k e
          = { lease := lease, pcs := pcs } := by
        simp [stepProcess, hpc]
      rw [hstep]; exact hinv
  | some pc =>
      have hk : k < pcs.length := getElem?_lt hpc
      have hex := executing_of_getElem? { lease := lease, pcs := pcs } k pc hpc
      cases pc with
      | finished x =>
          have hstep : stepProcess { lease := lease, pcs := pcs } k e
              = { lease := lease, pcs := pcs } := by
            simp [stepProcess, hpc]
          rw [hstep]; exact hinv
      | atLock =>
          cases lease with
          | none =>
              have hstep : stepProcess { lease := none, pcs := pcs } k e
                  = { lease := some k, pcs := pcs.set k Pc.inBody } := by
                simp [stepProcess, hpc, tryAcquire]
              rw [hstep]
              intro i hi
              by_cases hki : k = i
              · subst hki; rfl
              · rw [executing_set_other pcs none _ k i _ hki] at hi
                exact absurd (hinv i hi) (by simp)
          | some t =>
              have hstep : stepProcess { lease := some t, pcs := pcs } k e
                  = { lease := some t, pcs := pcs.set k (Pc.finished Exit.returned) } := by
                simp [stepProcess, hpc, tryAcquire]
              rw [hstep]
              intro i hi
              by_cases hki : k = i
              · subst hki
                rw [executing_set_same pcs _ k _ hk] at hi
                simp [Pc.holdsLock] at hi
              · rw [executing_set_other pcs (some t) _ k i _ hki] at hi
                exact hinv i hi
      | inBody =>
          have hstep : stepProcess { lease := lease, pcs := pcs } k e
              = { lease := lease, pcs := pcs.set k (Pc.atUnlock e) } := by
            simp [stepProcess, hpc]
          rw [hstep]
          intro i hi
          by_cases hki : k = i
          · subst hki
            exact hinv k (by rw [hex]; rfl)
          · rw [executing_set_other pcs lease _ k i _ hki] at hi
            exact hinv i hi
      | atUnlock x =>
          have hown : lease = some k := hinv k (by rw [hex]; rfl)
          have hstep : stepProcess { lease := lease, pcs := pcs } k e
              = { lease := none, pcs := pcs.set k (Pc.finished x) } := by
            simp [stepProcess, hpc, release, hown]
          rw [hstep]
          intro i hi
          by_cases hki : k = i
          · subst hki
            rw [executing_set_same pcs _ k _ hk] at hi
            simp [Pc.holdsLock] at hi
          · rw [executing_set_other pcs lease _ k i _ hki] at hi
            have := hinv i hi
            rw [hown] at this
            exact absurd (Option.some.inj this) hki

/-- The invariant holds along every interleaving. -/
theorem execute_ownerInv (s : FleetState) (sched : List (Nat × Exit)) (hinv : s.ownerInv) :
    (execute s sched).ownerInv := by
  induction sched generalizing s with
  | nil => exact hinv
  | cons a rest ih =>
      obtain ⟨i, e⟩ := a
      exact ih (stepProcess s i e) (stepProcess_ownerInv s i e hinv)

/-- A duplicate-free list all of whose members equal `k` has at most one member. -/
theorem length_le_one_of_all_eq (l : List Nat) (k : Nat) (hnd : l.Nodup)
    (hall : ∀ x ∈ l, x = k) : l.length ≤ 1 := by
  match l, hnd, hall with
  | [], _, _ => simp
  | [_], _, _ => simp
  | a :: b :: rest, hnd, hall =>
      have ha : a = k := hall a (by simp)
      have hb : b = k := hall b (by simp)
      have hne : a ≠ b := by
        intro hab
        rw [List.nodup_cons] at hnd
        exact hnd.1 (by simp [hab])
      exact absurd (ha.trans hb.symm) hne


/-- A process alone in the fleet acquires the lock, runs the body, releases the lock and
ends as its body ended. -/
theorem solo_process_completes :
    execute (FleetState.initial 1) [(0, Exit.returned), (0, Exit.panicked), (0, Exit.returned)]
      = { lease := none, pcs := [Pc.finished Exit.panicked] } := by
  decide

/-- C6: for every number `N ≥ 1` of processes running `Run` against one lock backend with
set-if-absent acquire and owner-checked release, and for every interleaving of their
acquire, body and release steps in which no lease expires, at most one process is between
its successful acquire and its release: the processes that are executing the body number
at most one, and any two executing processes are the same process. -/
theorem C6_mutual_exclusion (n : Nat) (_hn : 1 ≤ n) (sched : List (Nat × Exit)) :
    ((List.range n).filter (execute (FleetState.initial n) sched).executing).length ≤ 1
    ∧ ∀ i j, (execute (FleetState.initial n) sched).executing i = true →
        (execute (FleetState.initial n) sched).executing j = true → i = j := by
  have hinv := execute_ownerInv (FleetState.initial n) sched (initial_ownerInv n)
  have huniq : ∀ i j, (execute (FleetState.initial n) sched).executing i = true →
      (execute (FleetState.initial n) sched).executing j = true → i = j := by
    intro i j hi hj
    have h1 := hinv i hi
    have h2 := hinv j hj
    rw [h1] at h2
    exact Option.some.inj h2
  refine ⟨?_, huniq⟩
  cases hl : (execute (FleetState.initial n) sched).lease with
  | none =>
      have hempty : (List.range n).filter (execute (FleetState.initial n) sched).executing
          = [] := by
        rw [List.filter_eq_nil_iff]
        intro i _ hi
        have := hinv i hi
        rw [hl] at this
        exact absurd this (by simp)
      rw [hempty]
      simp
  | some k =>
      apply length_le_one_of_all_eq _ k
      · exact (List.nodup_range n).filter _
      · intro i hi
        have hex := (List.mem_filter.mp hi).2
        have := hinv i hex
        rw [hl] at this
        exact (Option.some.inj this).symm

/-- C6, at a fleet of three processes in which process 1 wins the lock and the other two
find it taken: process 1 is executing the body and nobody else is. -/
theorem C6_mutual_exclusion_witness :
    1 ≤ 3
    ∧ (execute (FleetState.initial 3)
        [(1, Exit.returned), (0, Exit.returned), (2, Exit.returned)]).executing 1 = true
    ∧ ((List.range 3).filter (execute (FleetState.initial 3)
        [(1, Exit.returned), (0, Exit.returned), (2, Exit.returned)]).executing).length ≤ 1 :=
  ⟨by decide, by decide,
    (C6_mutual_exclusion 3 (by decide)
      [(1, Exit.returned), (0, Exit.returned), (2, Exit.returned)]).1⟩

end Clean

/-! ## Properties of the application wrapper -/

namespace app

/-- C8 (defect in the code): applying `WithSilenceErrors b` leaves `silenceErrors` as it
was and overwrites `silenceUsage` with `b`; so `NewApp(use, short, WithSilenceErrors(false))`
has `silenceErrors = true` and `silenceUsage = false`, in the `App` and in the cobra
command built from it, where the option, by its name and by its sibling
`WithSilenceUsage`, is to give `silenceErrors = false` and `silenceUsage = true`. -/
theorem C8_WithSilenceErrors_writes_silenceUsage (b : Bool) (a : App)
    (FormatUseName : String → String) (use short : String) :
    (WithSilenceErrors b a).silenceErrors = a.silenceErrors
    ∧ (WithSilenceErrors b a).silenceUsage = b
    ∧ WithSilenceErrors b a = WithSilenceUsage b a
    ∧ (NewApp FormatUseName use short [WithSilenceErrors false]).silenceErrors = true
    ∧ (NewApp FormatUseName use short [WithSilenceErrors false]).silenceUsage = false
    ∧ ((NewApp FormatUseName use short [WithSilenceErrors false]).cmd.map
        fun c => (c.SilenceUsage, c.SilenceErrors)) = some (false, true) :=
  ⟨rfl, rfl, rfl, rfl, rfl, rfl⟩

/-- C9 as stated fails: with options that are not completable and whose `Validate` returns
the non-empty list holding one nil error, `runE` does not stop at the first element: it
invokes the run function and returns that function's error. -/
theorem C9_counterexample :
    (NewApp id "apiserver" "api server"
        [WithFlags (some { Flags := [], Complete := none, Validate := [none] }),
         WithRunFunc (some fun _ => some (GoError.dynamic "run failed"))]).options
      = some { Flags := [], Complete := none, Validate := [none] }
    ∧ runE (NewApp id "apiserver" "api server"
        [WithFlags (some { Flags := [], Complete := none, Validate := [none] }),
         WithRunFunc (some fun _ => some (GoError.dynamic "run failed"))]) none []
      = { err := some (GoError.dynamic "run failed"),
          calls := [Call.validate, Call.runFunc "apiserver"],
          exit := Clean.Exit.returned } :=
  ⟨rfl, rfl⟩

/-- C9 (amended): for every `App` with non-nil options, `runE` gates the run function on
the option rules. If the options are completable and `Complete` returns an error `e`,
`runE` returns `e` having called only `Complete`. Otherwise, if `Validate` returns a list
whose first element is a non-nil error `e`, `runE` returns `e` having called `Validate`
and not the run function. And when `Complete` does not fail and `Validate` returns the empty
list, `runE` returns the result of the run function applied to the use name, or nil when
there is no run function. Nothing is said of a non-empty list whose first element is
nil. -/
theorem C9_runE_gates (a : App) (o : CliOptions) (cmd : Option Command) (args : List String)
    (ho : a.options = some o) :
    (∀ e, o.Complete = some (some e) →
        runE a cmd args
          = { err := some e, calls := [Call.complete], exit := Clean.Exit.returned })
    ∧ (∀ e rest, (∀ e0, o.Complete ≠ some (some e0)) → o.Validate = some e :: rest →
        runE a cmd args
          = { err := some e,
              calls := (if o.Complete.isSome then [Call.complete] else []) ++ [Call.validate],
              exit := Clean.Exit.returned })
    ∧ ((∀ e0, o.Complete ≠ some (some e0)) → o.Validate = [] →
        runE a cmd args
          = match a.runFunc with
            | some f =>
                { err := f a.use,
                  calls := (if o.Complete.isSome then [Call.complete] else [])
                    ++ [Call.validate, Call.runFunc a.use],
                  exit := Clean.Exit.returned }
            | none =>
                { err := none,
                  calls := (if o.Complete.isSome then [Call.complete] else [])
                    ++ [Call.validate],
                  exit := Clean.Exit.returned }) := by
  refine ⟨?_, ?_, ?_⟩
  · intro e he
    simp [runE, applyOptionRules, ho, he]
  · intro e rest hc hv
    rcases hcomp : o.Complete with _ | (_ | e0)
    · simp [runE, applyOptionRules, ho, hcomp, hv]
    · simp [runE, applyOptionRules, ho, hcomp, hv]
    · exact absurd hcomp (hc e0)
  · intro hc hv
    rcases hcomp : o.Complete with _ | (_ | e0)
    · cases hf : a.runFunc <;> simp [runE, applyOptionRules, ho, hcomp, hv, hf]
    · cases hf : a.runFunc <;> simp [runE, applyOptionRules, ho, hcomp, hv, hf]
    · exact absurd hcomp (hc e0)

/-- C9 (amended), at options whose `Complete` succeeds and whose `Validate` reports two
errors: the first one is returned and the run function is not called. -/
theorem C9_runE_gates_witness :
    runE (NewApp id "apiserver" "api server"
        [WithFlags (some
            { Flags := ["generic"], Complete := some none,
              Validate := [some (GoError.dynamic "bad mode"),
                some (GoError.dynamic "bad port")] }),
         WithRunFunc (some fun _ => none)]) none []
      = { err := some (GoError.dynamic "bad mode"),
          calls := [Call.complete, Call.validate],
          exit := Clean.Exit.returned } :=
  (C9_runE_gates
    (NewApp id "apiserver" "api server"
        [WithFlags (some
            { Flags := ["generic"], Complete := some none,
              Validate := [some (GoError.dynamic "bad mode"),
                some (GoError.dynamic "bad port")] }),
         WithRunFunc (some fun _ => none)])
    { Flags := ["generic"], Complete := some none,
      Validate := [some (GoError.dynamic "bad mode"), some (GoError.dynamic "bad port")] }
    none [] rfl).2.1 (GoError.dynamic "bad mode") [some (GoError.dynamic "bad port")]
      (by intro e0 h; cases h) rfl

end app
